import Mathlib

/-!
Verification development for the Financial-chatbot repository.

The Python sources `src/excel_parser.py` and `src/financial_chatbot.py` are
shallowly embedded below.  Pure helpers become Lean functions; pandas cell
access (which raises `IndexError` out of range) and `pd.read_excel` of a
missing sheet are modelled in `Except String`; numeric cell values are
modelled as `Int` — the Python floats here carry financial figures that
every claim only compares with zero or sums exactly, so no claim depends
on fractional parts or floating-point rounding.  A text cell carries the
outcome of Python `float()` on its content as an `Option Int` field, so no
float grammar has to be axiomatised.  String primitives (`lower`, `strip`,
`in`, `startswith`, `join`) are given explicit character-list definitions
so that every concrete instance evaluates inside the kernel.
-/

namespace FinBot

/-! ### Basic string machinery shared by both source files -/

/-- Python `s.lower()` (the inputs are ASCII). -/
def asciiLower (s : String) : String := ⟨s.data.map Char.toLower⟩

/-- Python `s.strip()`: remove leading and trailing whitespace. -/
def pyStrip (s : String) : String :=
  ⟨((s.data.dropWhile Char.isWhitespace).reverse.dropWhile Char.isWhitespace).reverse⟩

/-- Python `c in s` for a single character. -/
def charIn (c : Char) (s : String) : Bool := s.data.contains c

/-- Python `s.startswith(p)`. -/
def strStartsWith (p s : String) : Bool := p.data.isPrefixOf s.data

/-- Python `' '.join(parts)`. -/
def joinSpace : List String → String
  | [] => ""
  | a :: as => as.foldl (fun acc x => acc ++ " " ++ x) a

/-- One substring occurrence test (Python `pat in s`), on char lists. -/
def containsSubL (pat : List Char) : List Char → Bool
  | [] => pat.isEmpty
  | c :: rest => pat.isPrefixOf (c :: rest) || containsSubL pat rest

/-- Python `pat in s` substring containment. -/
def containsSub (pat s : String) : Bool := containsSubL pat.data s.data

/-- Python regex word character class `\w` (inputs here are ASCII). -/
def isWordChar (c : Char) : Bool := c.isAlphanum || c = '_'

/-- Left side of a `\b` boundary for a pattern beginning with a word char:
the previous character is absent or not a word character. -/
def leftBoundary : Option Char → Bool
  | none => true
  | some p => !(isWordChar p)

/-- Right side of a `\b` boundary for a pattern ending with a word char:
the next character is absent or not a word character. -/
def rightBoundary (rest : List Char) : Bool :=
  match rest.head? with
  | none => true
  | some c => !(isWordChar c)

/-- Core of `re.sub(r'\b' + re.escape(pat) + r'\b', rep, s)` for patterns
that begin and end with word characters (every acronym key does): scan left
to right, replace each boundary-delimited occurrence, never rescanning the
replacement text.  Fuel is the input length; each step consumes at least
one input character. -/
def subWordFuel (pat rep : List Char) : Nat → Option Char → List Char → List Char
  | 0, _, cs => cs
  | _ + 1, _, [] => []
  | fuel + 1, prev, c :: rest =>
    if !pat.isEmpty && pat.isPrefixOf (c :: rest) && leftBoundary prev
        && rightBoundary (List.drop pat.length (c :: rest)) then
      rep ++ subWordFuel pat rep fuel pat.getLast? (List.drop pat.length (c :: rest))
    else
      c :: subWordFuel pat rep fuel (some c) rest

/-- `re.sub(r'\b...\b', rep, s)` whole-word replacement. -/
def replaceWord (s pat rep : String) : String :=
  ⟨subWordFuel pat.data rep.data s.data.length none s.data⟩

/-- Core of `re.search(r'\b' + re.escape(pat) + r'\b', s)` (match found or
not), for patterns that begin and end with word characters. -/
def containsWordFuel (pat : List Char) : Nat → Option Char → List Char → Bool
  | 0, _, _ => false
  | _ + 1, _, [] => false
  | fuel + 1, prev, c :: rest =>
    (!pat.isEmpty && pat.isPrefixOf (c :: rest) && leftBoundary prev
        && rightBoundary (List.drop pat.length (c :: rest)))
    || containsWordFuel pat fuel (some c) rest

/-- Whole-word search `re.search(r'\b...\b', s) is not None`. -/
def containsWord (pat s : String) : Bool :=
  containsWordFuel pat.data s.data.length none s.data

/-- Helper of `splitWs`: accumulate the current word (reversed). -/
def splitWsGo : List Char → List Char → List (List Char)
  | [], acc => if acc.isEmpty then [] else [acc.reverse]
  | c :: rest, acc =>
    if c.isWhitespace then
      if acc.isEmpty then splitWsGo rest [] else acc.reverse :: splitWsGo rest []
    else splitWsGo rest (c :: acc)

/-- Python `s.split()`: split on whitespace runs, discarding empties. -/
def splitWs (s : String) : List String := (splitWsGo s.data []).map String.mk

/-! ### `src/excel_parser.py` -/

/-- One spreadsheet cell as pandas presents it.  `blank` is an NA cell;
`num v` a numeric cell; `text s v?` a text cell whose content is `s` and
whose Python `float(s)` outcome is `v?` (`none` when `float` raises
`ValueError`).  Carrying the `float` outcome avoids axiomatising Python's
float grammar; the claims only need that some strings parse and others do
not. -/
inductive Cell where
  | blank : Cell
  | num : Int → Cell
  | text : String → Option Int → Cell
deriving DecidableEq

/-- Python `str(val)` for a non-NA cell (numeric rendering differs from
Python's float formatting; no claim reads a numeric cell as text). -/
def cellStr : Cell → String
  | .blank => ""
  | .num v => toString v
  | .text s _ => s

/-- `pd.isna(val)`. -/
def Cell.isna : Cell → Bool
  | .blank => true
  | _ => false

/-- `float(val) if pd.notna(val) else 0`, with `ValueError`/`TypeError`
from the `float` call reported as `none`. -/
def floatOfCell : Cell → Option Int
  | .blank => some 0
  | .num v => some v
  | .text _ v? => v?

/-- A sheet as read by `pd.read_excel(..., header=None)`: a rectangular
frame of shape `(nrows, ncols)`.  `cell` is only meaningful inside the
shape; `df.iloc` outside it raises `IndexError`. -/
structure Grid where
  nrows : Nat
  ncols : Nat
  cell : Nat → Nat → Cell

/-- `df.iloc[r, c]`, raising `IndexError` outside the frame. -/
def getCellE (g : Grid) (r c : Nat) : Except String Cell :=
  if r < g.nrows ∧ c < g.ncols then .ok (g.cell r c) else .error "IndexError"

/-- `get_merged_header_value`: `str(val).strip()` for a non-NA cell,
else the empty string (on an already-fetched cell). -/
def getMergedStr (c : Cell) : String :=
  if c.isna then "" else pyStrip (cellStr c)

/-- `clean_text_value`: strip, then drop one leading `=`. -/
def cleanTextValue (c : Cell) : String :=
  if c.isna then ""
  else
    let t := pyStrip (cellStr c)
    if strStartsWith "=" t then ⟨t.data.drop 1⟩ else t

/-- `FORMULA_INDICATOR_PATTERNS` matching (`re.match`, i.e. anchored at the
start) after the function's own `str(text).strip()`. -/
def isFormulaIndicator (s : String) : Bool :=
  if s.data.isEmpty then false
  else
    let cs := (pyStrip s).data
    -- r'^[A-Z]$'
    (match cs with
     | [c] => c.isUpper
     | _ => false)
    -- r'^[A-Z]=[A-Z][+-]'
    || (match cs with
        | c0 :: '=' :: c1 :: c2 :: _ => c0.isUpper && c1.isUpper && (c2 = '+' || c2 = '-')
        | _ => false)
    -- r'^E\d*=[A-Z]/[A-Z]'
    || (match cs with
        | 'E' :: rest =>
          (match rest.dropWhile Char.isDigit with
           | '=' :: u :: '/' :: v :: _ => u.isUpper && v.isUpper
           | _ => false)
        | _ => false)
    -- r'^ Balance .*'
    || (" Balance ".data.isPrefixOf cs)
    -- r'^% of time.*'
    || ("% of time".data.isPrefixOf cs)

/-- Models `parse_date_to_year_month` ∘ `pd.to_datetime` on the metadata
string: only ISO `YYYY-MM-DD` dates are modelled (pandas accepts more
formats); every failure of `pd.to_datetime`, including on the empty
string, is `none`, matching the bare `except` in the source. -/
def pyParseDate? (s : String) : Option (Nat × Nat) :=
  match s.data with
  | [y1, y2, y3, y4, '-', m1, m2, '-', d1, d2] =>
    if y1.isDigit && y2.isDigit && y3.isDigit && y4.isDigit
        && m1.isDigit && m2.isDigit && d1.isDigit && d2.isDigit then
      let y := ((y1.toNat - 48) * 1000 + (y2.toNat - 48) * 100
                + (y3.toNat - 48) * 10 + (y4.toNat - 48))
      let m := (m1.toNat - 48) * 10 + (m2.toNat - 48)
      let d := (d1.toNat - 48) * 10 + (d2.toNat - 48)
      if 1 ≤ m ∧ m ≤ 12 ∧ 1 ≤ d ∧ d ≤ 31 then some (y, m) else none
    else none
  | _ => none

/-- `MONTH_MAP` in dict insertion order. -/
def MONTH_MAP : List (String × Nat) :=
  [("january", 1), ("jan", 1), ("february", 2), ("feb", 2), ("march", 3), ("mar", 3),
   ("april", 4), ("apr", 4), ("may", 5), ("june", 6), ("jun", 6), ("july", 7), ("jul", 7),
   ("august", 8), ("aug", 8), ("september", 9), ("sep", 9), ("sept", 9),
   ("october", 10), ("oct", 10), ("november", 11), ("nov", 11), ("december", 12), ("dec", 12)]

/-- `parse_time_column_header`: first month name contained in the
lower-cased stripped header.  The source always returns `None` for the
year component, so only the month is produced here. -/
def parseTimeColumnHeader (s : String) : Option Nat :=
  if s.data.isEmpty then none
  else
    let h := asciiLower (pyStrip s)
    MONTH_MAP.findSome? fun nm => if containsSub nm.1 h then some nm.2 else none

/-- One flat output row
`(Year, Month, Sheet_Name, Financial_Type, Item_Code, Data_Type, Value)`. -/
structure PFact where
  year : Nat
  month : Nat
  sheetName : String
  financialType : String
  itemCode : String
  dataType : String
  value : Int
deriving DecidableEq

/-- Sequence a list of fallible computations, concatenating their results;
the first raised exception propagates, as in the Python loops. -/
def collectM {α β : Type} (g : α → Except String (List β)) : List α → Except String (List β)
  | [] => .ok []
  | a :: as =>
    match g a with
    | .error e => .error e
    | .ok bs =>
      match collectM g as with
      | .error e => .error e
      | .ok rest => .ok (bs ++ rest)

/-- As `collectM`, for computations that also emit warnings. -/
def collectPW {α β γ : Type} (g : α → Except String (List β × List γ)) :
    List α → Except String (List β × List γ)
  | [] => .ok ([], [])
  | a :: as =>
    match g a with
    | .error e => .error e
    | .ok (bs, ws) =>
      match collectPW g as with
      | .error e => .error e
      | .ok (rest, wrest) => .ok (bs ++ rest, ws ++ wrest)

/-- Header tracing of `parse_financial_status_sheet` (rows 11–14 of every
column from C on): keep non-blank cells whose stripped text is not a
formula indicator, and record the `' '.join` when any part survives.  Note
the source appends `str(val).strip()` itself, not `clean_text_value`. -/
def buildFinancialTypes (g : Grid) : List (Nat × String) :=
  (List.range' 2 (g.ncols - 2)).foldl
    (fun acc col =>
      let parts := (List.range' 11 4).foldl
        (fun ps r =>
          if r < g.nrows ∧ col < g.ncols then
            let c := g.cell r col
            if !c.isna ∧ pyStrip (cellStr c) ≠ "" then
              if !isFormulaIndicator (pyStrip (cellStr c)) then ps ++ [pyStrip (cellStr c)]
              else ps
            else ps
          else ps) []
      if parts ≠ [] then
        let combined := joinSpace parts
        if combined ≠ "" then acc ++ [(col, combined)] else acc
      else acc) []

/-- Body of the `try` block at the heart of the Financial Status value loop
(`excel_parser.py` lines 145–152): a failed `float` is caught and emits
nothing; otherwise a row is appended exactly when the value is non-zero or
the item code has no dot. -/
def fsCellFact (year month : Nat) (finType itemCode dataType : String) (c : Cell) :
    List PFact :=
  match floatOfCell c with
  | none => []
  | some v =>
    if v ≠ 0 ∨ ¬(charIn '.' itemCode) then
      [⟨year, month, "Financial Status", finType, itemCode, dataType, v⟩]
    else []

/-- One data row (row index `r ≥ 15`) of the Financial Status sheet. -/
def fsRow (g : Grid) (fts : List (Nat × String)) (year month : Nat) (r : Nat) :
    Except String (List PFact) :=
  match getCellE g r 0 with
  | .error e => .error e
  | .ok icCell =>
    match getCellE g r 1 with
    | .error e => .error e
    | .ok dtCell =>
      let itemCode := getMergedStr icCell
      let dataType := cleanTextValue dtCell
      if itemCode = "" ∨ itemCode = "Item" ∨ itemCode = "(HK$" then .ok []
      else
        .ok ((fts.map fun ft =>
          if ft.1 < g.ncols then
            fsCellFact year month ft.2 itemCode dataType (g.cell r ft.1)
          else []).flatten)

/-- `parse_financial_status_sheet` (always called with `year=month=None`,
so the report date is read from B5).  Returns the rows plus emitted
warnings; an out-of-frame access propagates as an exception. -/
def parseFinancialStatusSheet (g : Grid) : Except String (List PFact × List String) :=
  match getCellE g 4 1 with
  | .error e => .error e
  | .ok b5 =>
    match pyParseDate? (getMergedStr b5) with
    | none => .ok ([], ["Warning: Could not extract year/month from Financial Status"])
    | some ym =>
      match collectM (fsRow g (buildFinancialTypes g) ym.1 ym.2)
          (List.range' 15 (g.nrows - 15)) with
      | .error e => .error e
      | .ok rows => .ok (rows, [])

/-- Body of the `try` block of the other-sheet value loop
(`excel_parser.py` lines 220–227). -/
def otherCellFact (year month : Nat) (sheetName itemCode dataType : String) (c : Cell) :
    List PFact :=
  match floatOfCell c with
  | none => []
  | some v =>
    if v ≠ 0 ∨ ¬(charIn '.' itemCode) then
      [⟨year, month, sheetName, sheetName, itemCode, dataType, v⟩]
    else []

/-- One data row (row index `r ≥ 12`) of a non-Financial-Status sheet. -/
def otherRow (g : Grid) (timeCols : List (Nat × Nat × Nat)) (sheetName : String) (r : Nat) :
    Except String (List PFact) :=
  match getCellE g r 0 with
  | .error e => .error e
  | .ok icCell =>
    match getCellE g r 1 with
    | .error e => .error e
    | .ok dtCell =>
      let itemCode := getMergedStr icCell
      let dataType := cleanTextValue dtCell
      if itemCode = "" ∨ itemCode = "Item" ∨ itemCode = "(HK$" then .ok []
      else
        .ok ((timeCols.map fun tc =>
          if tc.1 < g.ncols then
            otherCellFact tc.2.2 tc.2.1 sheetName itemCode dataType (g.cell r tc.1)
          else []).flatten)

/-- `parse_other_sheet`.  B5 is read unconditionally; then the year comes
from the report date or (when truthy) `base_year`; then row 11 is read
across every column (unguarded `iloc`); rows from index 12 are data. -/
def parseOtherSheet (g : Grid) (sheetName : String) (baseYear? : Option Nat) :
    Except String (List PFact × List String) :=
  match getCellE g 4 1 with
  | .error e => .error e
  | .ok b5 =>
    let year? : Option Nat :=
      match pyParseDate? (getMergedStr b5) with
      | some ym => some ym.1
      | none =>
        match baseYear? with
        | some b => if b ≠ 0 then some b else none
        | none => none
    match year? with
    | none => .ok ([], ["Warning: Could not extract year from " ++ sheetName])
    | some year =>
      match collectM (fun c =>
          match getCellE g 11 c with
          | .error e => .error e
          | .ok cl => .ok [getMergedStr cl]) (List.range g.ncols) with
      | .error e => .error e
      | .ok timeHeaders =>
        let timeCols := (List.range' 2 (g.ncols - 2)).foldl
          (fun acc col =>
            let header := timeHeaders.getD col ""
            if header ≠ "" then
              match parseTimeColumnHeader header with
              | some m => acc ++ [(col, m, year)]
              | none => acc
            else acc) []
        match collectM (otherRow g timeCols sheetName) (List.range' 12 (g.nrows - 12)) with
        | .error e => .error e
        | .ok rows => .ok (rows, [])

/-- `pd.read_excel(xl, sheet_name=nm)`: the named sheet, or the
`ValueError` pandas raises when it is absent. -/
def readSheet (wb : List (String × Grid)) (nm : String) : Except String Grid :=
  match wb.find? (fun p => p.1 = nm) with
  | some p => .ok p.2
  | none => .error ("Worksheet named " ++ nm ++ " not found")

/-- `parse_workbook`: Financial Status first (fixing the base year from
its first row), then every other sheet in workbook order. -/
def parseWorkbook (wb : List (String × Grid)) : Except String (List PFact × List String) :=
  match readSheet wb "Financial Status" with
  | .error e => .error e
  | .ok fsGrid =>
    match parseFinancialStatusSheet fsGrid with
    | .error e => .error e
    | .ok (fsRows, fsWarns) =>
      let baseYear? := fsRows.head?.map (·.year)
      match collectPW (fun p =>
          if p.1 = "Financial Status" then .ok ([], [])
          else parseOtherSheet p.2 p.1 baseYear?) wb with
      | .error e => .error e
      | .ok (others, oWarns) => .ok (fsRows ++ others, fsWarns ++ oWarns)

/-! ### `src/financial_chatbot.py` -/

/-- `ACRONYMS` in dict insertion order. -/
def ACRONYMS : List (String × String) :=
  [("gp", "gross profit"), ("np", "net profit"), ("subcon", "subcontractor"),
   ("projected", "projection"), ("rebar", "reinforcement"),
   ("staff", "manpower (mgt. & supervision)"), ("labour", "manpower (labour)"),
   ("labor", "manpower (labour)"), ("cashflow", "cash flow"), ("cash", "cash flow"),
   ("prelim", "preliminaries"), ("preliminary", "preliminaries"),
   ("material", "materials"), ("plant", "plant and machinery"),
   ("machinery", "plant and machinery"), ("lab", "labour"),
   ("manpower", "manpower (labour) for works")]

/-- `expand_acronyms`: lower-case, then substitute each acronym entry in
dict order over the already-rewritten text. -/
def expandAcronyms (text : String) : String :=
  ACRONYMS.foldl (fun acc af => replaceWord acc af.1 af.2) (asciiLower text)

/-- One row of a loaded `_flat.csv` plus the columns `load_project_data`
adds (`Roll` and `_project`). -/
structure CFact where
  year : Nat
  month : Nat
  sheetName : String
  financialType : String
  itemCode : String
  dataType : String
  value : Int
  roll : Nat
  project : String
deriving DecidableEq

/-- A stored preference (`query_knowledge_base` value): the fields of the
confirmed match that the scorer compares against. -/
structure Saved where
  financialType : String
  dataType : String
  itemCode : String
deriving DecidableEq

/-- The preference store: normalized query text mapped to its saved match. -/
def lookupKB (kb : List (String × Saved)) (q : String) : Option Saved :=
  (kb.find? (fun p => p.1 = q)).map (·.2)

/-- One aggregated `groupby(['Sheet_Name','Financial_Type','Data_Type',
'Item_Code','Month'])` row: `Value` summed, `Roll` minimised. -/
structure Combo where
  sheetName : String
  financialType : String
  dataType : String
  itemCode : String
  month : Nat
  value : Int
  roll : Nat
deriving DecidableEq

/-- Grouping key of a fact row. -/
def comboKey (f : CFact) : String × String × String × String × Nat :=
  (f.sheetName, f.financialType, f.dataType, f.itemCode, f.month)

/-- The groupby/agg of `find_best_matches`.  (pandas sorts distinct group
keys; first-occurrence order is used here — no claim depends on the
relative order of distinct keys, only on the final score sort.) -/
def groupCombos (pdf : List CFact) : List Combo :=
  let keys := pdf.foldl (fun ks f => if comboKey f ∈ ks then ks else ks ++ [comboKey f]) []
  keys.map fun k =>
    let grp := pdf.filter (fun f => comboKey f = k)
    { sheetName := k.1, financialType := k.2.1, dataType := k.2.2.1,
      itemCode := k.2.2.2.1, month := k.2.2.2.2,
      value := (grp.map (·.value)).sum,
      roll := ((grp.map (·.roll)).min?).getD 0 }

/-- The `target_item_code` resolution of `find_best_matches`. -/
def targetItemCode (searchLower : String) : Option String :=
  if containsSub "net profit" searchLower || containsSub "net loss" searchLower then some "7"
  else if containsSub "after adjustment" searchLower || containsSub "adjusted" searchLower then
    some "5"
  else if containsSub "gross profit" searchLower then some "3"
  else none

/-- The per-word loop: +10 for each query word (length ≥ 2) contained in
the lowered Financial_Type and +10 in the lowered Data_Type, counting
matches. -/
def wordScore (sw : List String) (ft dt : String) : Nat × Nat :=
  sw.foldl
    (fun acc w =>
      if w.length < 2 then acc
      else
        let acc1 := if containsSub w ft then (acc.1 + 10, acc.2 + 1) else acc
        if containsSub w dt then (acc1.1 + 10, acc1.2 + 1) else acc1)
    (0, 0)

/-- The +30 exact-query-word bonuses against the lowered Financial_Type. -/
def exactWordBonuses (sw : List String) (ft : String) : Nat :=
  (if "projected" ∈ sw ∧ containsSub "projection" ft then 30 else 0)
  + (if "budget" ∈ sw ∧ containsSub "budget" ft then 30 else 0)
  + (if "audit" ∈ sw ∧ containsSub "audit" ft then 30 else 0)
  + (if "business" ∈ sw ∧ containsSub "business" ft then 30 else 0)
  + (if "cash" ∈ sw ∧ containsSub "cash" ft then 30 else 0)

/-- The +20 phrase bonuses. -/
def phraseBonuses (searchLower ft dt : String) : Nat :=
  (if containsSub "projection" searchLower ∧ containsSub "projection" ft then 20 else 0)
  + (if containsSub "budget" searchLower ∧ containsSub "budget" ft then 20 else 0)
  + (if containsSub "net profit" searchLower ∧ containsSub "net profit" dt then 20 else 0)

/-- The knowledge-base test: an entry stored under the normalized query
whose three saved fields equal this candidate's fields. -/
def kbMatch (kb : List (String × Saved)) (searchLower : String) (c : Combo) : Bool :=
  match lookupKB kb (pyStrip searchLower) with
  | some saved =>
    saved.financialType = c.financialType ∧ saved.dataType = c.dataType
      ∧ saved.itemCode = c.itemCode
  | none => false

/-- The full-coverage bonus: +30 when every query word of length ≥ 2
appears in one of the two lowered fields. -/
def coverageBonus (sw : List String) (ft dt : String) : Nat :=
  let total := (sw.filter (fun w => 2 ≤ w.length)).length
  let found := (sw.filter (fun w => 2 ≤ w.length
    ∧ (containsSub w ft ∨ containsSub w dt))).length
  if 0 < total ∧ found = total then 30 else 0

/-- Score and matched-word count of one candidate, mirroring the additive
accumulation of `find_best_matches` (the +200 preference boost only fires
when the store is non-empty, as in the source's truthiness test). -/
def comboScore (kb : List (String × Saved)) (searchLower : String) (sw : List String)
    (c : Combo) : Nat × Nat :=
  let ft := asciiLower c.financialType
  let dt := asciiLower c.dataType
  let ws := wordScore sw ft dt
  let b5 := if (targetItemCode searchLower).any (fun t => c.itemCode = t) then 5 else 0
  let b200 := if kb ≠ [] ∧ kbMatch kb searchLower c then 200 else 0
  (ws.1 + exactWordBonuses sw ft + phraseBonuses searchLower ft dt + b5 + b200
    + coverageBonus sw ft dt, ws.2)

/-- One entry of the returned match list. -/
structure Match where
  sheetName : String
  financialType : String
  dataType : String
  value : Int
  month : Nat
  itemCode : String
  score : Nat
  matchedCount : Nat
  roll : Nat
deriving DecidableEq

/-- Build the match record for a scored candidate. -/
def mkMatch (c : Combo) (score matchedCount : Nat) : Match :=
  ⟨c.sheetName, c.financialType, c.dataType, c.value, c.month, c.itemCode,
   score, matchedCount, c.roll⟩

/-- Python's stable descending sort key comparison on
`(score, matched_count)`: `a` may be placed no later than `b`. -/
def MatchGe (a b : Match) : Prop :=
  b.score < a.score ∨ (a.score = b.score ∧ b.matchedCount ≤ a.matchedCount)

instance (a b : Match) : Decidable (MatchGe a b) := by unfold MatchGe; exact inferInstance

/-- Insert into a descending-sorted list, keeping earlier (stable) order
among equal keys. -/
def insertMatch (a : Match) : List Match → List Match
  | [] => [a]
  | b :: bs => if MatchGe a b then a :: b :: bs else b :: insertMatch a bs

/-- `matches.sort(key=lambda x: (x['score'], x['matched_count']),
reverse=True)` — a stable descending sort. -/
def sortMatches : List Match → List Match
  | [] => []
  | a :: as => insertMatch a (sortMatches as)

/-- `find_best_matches(df, search_text, project)` with the session
preference store passed explicitly. -/
def findBestMatches (df : List CFact) (searchText project : String)
    (kb : List (String × Saved)) : List Match :=
  let pdf := df.filter (fun f => f.project = project)
  let searchLower := asciiLower (expandAcronyms searchText)
  let sw := splitWs searchLower
  let ms := (groupCombos pdf).foldl
    (fun acc c =>
      let sc := comboScore kb searchLower sw c
      if 0 < sc.1 then acc ++ [mkMatch c sc.1 sc.2] else acc) []
  sortMatches ms

/-- `category_keywords` of `handle_monthly_category`, in dict order. -/
def categoryKeywords : List (String × String) :=
  [("plant and machinery", "2.3"), ("preliminaries", "2.1"), ("preliminary", "2.1"),
   ("materials", "2.2"), ("material", "2.2"), ("plant", "2.3"), ("machinery", "2.3"),
   ("labour", "2.4"), ("labor", "2.4"), ("lab", "2.4"),
   ("manpower (labour) for works", "2.5"), ("manpower (labour)", "2.5"),
   ("manpower", "2.5"), ("subcontractor", "2.5"), ("subcon", "2.5"),
   ("staff", "2.6"), ("admin", "2.7"), ("administration", "2.7"), ("insurance", "2.8"),
   ("bond", "2.9"), ("others", "2.10"), ("other", "2.10"), ("contingency", "2.11")]

/-- Insert into a list sorted by decreasing keyword length (stable). -/
def insertByLen (a : String × String) : List (String × String) → List (String × String)
  | [] => [a]
  | b :: bs => if b.1.length ≤ a.1.length then a :: b :: bs else b :: insertByLen a bs

/-- `sorted(category_keywords.items(), key=lambda x: len(x[0]),
reverse=True)` — stable, longest keyword first. -/
def sortedKeywords : List (String × String) :=
  categoryKeywords.foldr insertByLen []

/-- The category search: the first (longest-first) keyword found as a
whole word in the doubly-expanded question. -/
def findCategory (questionExpanded : String) : Option (String × String) :=
  sortedKeywords.find? (fun kp => containsWord kp.1 questionExpanded)

/-- Month-name detection shared by the handlers: full names first, then
(only when none hit) the three-letter abbreviations, by substring. -/
def findQuestionMonth (questionLower : String) : Option Nat :=
  let monthNames := ["january", "february", "march", "april", "may", "june",
    "july", "august", "september", "october", "november", "december"]
  let monthAbbr := ["jan", "feb", "mar", "apr", "may", "jun", "jul", "aug",
    "sep", "oct", "nov", "dec"]
  match (List.range 12).find? (fun i => containsSub (monthNames.getD i "") questionLower) with
  | some i => some (i + 1)
  | none =>
    match (List.range 12).find? (fun i => containsSub (monthAbbr.getD i "") questionLower) with
    | some i => some (i + 1)
    | none => none

/-- The fixed classification list of `handle_monthly_category`. -/
def monthlyFinancialTypes : List String :=
  ["Projection", "Committed Cost", "Accrual", "Cash Flow"]

/-- The target month `handle_monthly_category` compares the `Month` column
against.  When a month name occurs in the question it is the parsed
integer; otherwise it is `st.session_state.current_month`, which is set
only from the month selectbox over Drive folder names and is therefore a
string (financial_chatbot.py line 730). -/
inductive TargetMonth where
  | int : Nat → TargetMonth
  | str : String → TargetMonth
deriving DecidableEq

/-- The pandas elementwise test `df['Month'] == target_month`: the integer
`Month` column equals an integer target as usual, while comparing the
int64 column with a string is `False` for every row (pandas compares
unequal types as unequal; it does not raise). -/
def monthEq (m : Nat) : TargetMonth → Bool
  | .int n => m = n
  | .str _ => false

/-- The per-classification accumulation loop: take the target month's rows
of the classification's own sheet (falling back to the Financial Status
sheet rows with that Financial_Type when there are none), then add the
`Value` of every row whose Item_Code starts with `pfx + "."` or equals
`pfx`. -/
def categoryTotal (pdf : List CFact) (ft pfx : String) (targetMonth : TargetMonth) : Int :=
  let filtered := pdf.filter (fun f => f.sheetName = ft ∧ monthEq f.month targetMonth)
  let filtered :=
    if filtered.length = 0 then
      pdf.filter (fun f => f.sheetName = "Financial Status" ∧ f.financialType = ft
        ∧ monthEq f.month targetMonth)
    else filtered
  filtered.foldl
    (fun total f =>
      if strStartsWith (pfx ++ ".") f.itemCode ∨ f.itemCode = pfx then total + f.value
      else total) 0

/-- `handle_monthly_category(df, project, question)` with the session's
selected report month passed explicitly — as the folder-name string that
`st.session_state.current_month` actually holds.  The Markdown response
the source assembles from its `results` dict is not modelled; the
function returns that dict as an ordered association list, or `none` when
the query is not a monthly-category request. -/
def handleMonthlyCategory (df : List CFact) (project question : String)
    (currentMonth : String) : Option (List (String × Int)) :=
  let pdf := df.filter (fun f => f.project = project)
  let questionLower := asciiLower (expandAcronyms question)
  let isMonthly := containsSub "monthly" questionLower
  let questionExpanded := expandAcronyms questionLower
  match findCategory questionExpanded with
  | none => none
  | some kp =>
    if isMonthly then
      let targetMonth : TargetMonth :=
        match findQuestionMonth questionLower with
        | some m => .int m
        | none => .str currentMonth
      some (monthlyFinancialTypes.map fun ft => (ft, categoryTotal pdf ft kp.2 targetMonth))
    else none

/-! ### Concrete data used by witnesses and counterexamples -/

/-- A small but complete Financial Status sheet: report date in B5, a
merged header ("D=B+C" over "Gross Profit") in column C, one structural
data row with value 500, and one dotted zero row. -/
def gFS : Grid :=
  { nrows := 17, ncols := 4,
    cell := fun r c =>
      if r = 4 ∧ c = 1 then .text "2024-06-15" none
      else if r = 12 ∧ c = 2 then .text "D=B+C" none
      else if r = 13 ∧ c = 2 then .text "Gross Profit" none
      else if r = 15 ∧ c = 0 then .text "3" (some 3)
      else if r = 15 ∧ c = 1 then .text "Gross Profit" none
      else if r = 15 ∧ c = 2 then .num 500
      else if r = 16 ∧ c = 0 then .text "2.1.3" none
      else if r = 16 ∧ c = 2 then .num 0
      else .blank }

/-- A one-sheet workbook whose Financial Status sheet parses. -/
def wbRich : List (String × Grid) := [("Financial Status", gFS)]

/-- A Financial Status sheet whose B5 metadata cell holds unparseable
text, and a Projection sheet in the same state. -/
def gBadDate : Grid :=
  { nrows := 12, ncols := 2,
    cell := fun r c => if r = 4 ∧ c = 1 then .text "garbage" none else .blank }

/-- A workbook whose metadata cells are unreadable everywhere. -/
def wbBadDates : List (String × Grid) :=
  [("Financial Status", gBadDate), ("Projection", gBadDate)]

/-- A header column whose only surviving cell is the text `=Gross Profit`
(an Excel formula shown as text). -/
def gEq : Grid :=
  { nrows := 15, ncols := 3,
    cell := fun r c => if r = 11 ∧ c = 2 then .text "=Gross Profit" none else .blank }

/-- The claim's header example: blank row, `D=B+C`, `Gross Profit`. -/
def gHdr : Grid :=
  { nrows := 15, ncols := 3,
    cell := fun r c =>
      if r = 12 ∧ c = 2 then .text "D=B+C" none
      else if r = 13 ∧ c = 2 then .text "Gross Profit" none
      else .blank }

/-- A Projection/Gross-Profit row of project `P` (chatbot CSV shape). -/
def fGP : CFact := ⟨2024, 6, "Financial Status", "Projection", "1", "Gross Profit", 42, 2, "P"⟩

/-- A Net-Profit row of project `P` whose fields share no query word. -/
def fNP : CFact := ⟨2024, 6, "Financial Status", "Committed Cost", "7", "Net Profit", 7, 3, "P"⟩

/-- Projection fact 2.1.3 of month 6 worth 500 (claim C7's example). -/
def fPre1 : CFact := ⟨2024, 6, "Projection", "Projection", "2.1.3", "x", 500, 2, "P"⟩

/-- Projection fact 2.2.1 of month 6 worth 300 (claim C7's example). -/
def fPre2 : CFact := ⟨2024, 6, "Projection", "Projection", "2.2.1", "y", 300, 3, "P"⟩

/-! ### Helper lemmas -/

theorem mem_collectM {α β : Type} {g : α → Except String (List β)} :
    ∀ {l : List α} {res : List β}, collectM g l = .ok res →
      ∀ b ∈ res, ∃ a ∈ l, ∃ bs, g a = .ok bs ∧ b ∈ bs := by
  intro l
  induction l with
  | nil =>
    intro res h b hb
    simp only [collectM] at h
    cases h
    simp at hb
  | cons a as ih =>
    intro res h b hb
    simp only [collectM] at h
    cases hga : g a with
    | error e => rw [hga] at h; cases h
    | ok bs =>
      rw [hga] at h
      cases hrest : collectM g as with
      | error e => rw [hrest] at h; cases h
      | ok rest =>
        rw [hrest] at h
        cases h
        rcases List.mem_append.mp hb with hb1 | hb2
        · exact ⟨a, List.mem_cons_self a as, bs, hga, hb1⟩
        · rcases ih hrest b hb2 with ⟨a', ha', bs', hgs', hb'⟩
          exact ⟨a', List.mem_cons_of_mem a ha', bs', hgs', hb'⟩

theorem collectM_ok {α β : Type} {g : α → Except String (List β)} :
    ∀ {l : List α}, (∀ a ∈ l, ∃ bs, g a = .ok bs) →
      ∃ res, collectM g l = .ok res := by
  intro l
  induction l with
  | nil => exact fun _ => ⟨[], rfl⟩
  | cons a as ih =>
    intro h
    rcases h a (List.mem_cons_self a as) with ⟨bs, hbs⟩
    rcases ih (fun x hx => h x (List.mem_cons_of_mem a hx)) with ⟨rest, hrest⟩
    exact ⟨bs ++ rest, by simp only [collectM, hbs, hrest]⟩

theorem mem_collectPW {α β γ : Type} {g : α → Except String (List β × List γ)} :
    ∀ {l : List α} {res : List β × List γ}, collectPW g l = .ok res →
      ∀ b ∈ res.1, ∃ a ∈ l, ∃ p, g a = .ok p ∧ b ∈ p.1 := by
  intro l
  induction l with
  | nil =>
    intro res h b hb
    simp only [collectPW] at h
    cases h
    simp at hb
  | cons a as ih =>
    intro res h b hb
    simp only [collectPW] at h
    cases hga : g a with
    | error e => rw [hga] at h; cases h
    | ok p =>
      rw [hga] at h
      cases hrest : collectPW g as with
      | error e => rw [hrest] at h; cases h
      | ok q =>
        rw [hrest] at h
        cases h
        rcases List.mem_append.mp hb with hb1 | hb2
        · exact ⟨a, List.mem_cons_self a as, p, hga, hb1⟩
        · rcases ih hrest b hb2 with ⟨a', ha', p', hgs', hb'⟩
          exact ⟨a', List.mem_cons_of_mem a ha', p', hgs', hb'⟩

theorem collectPW_ok {α β γ : Type} {g : α → Except String (List β × List γ)} :
    ∀ {l : List α}, (∀ a ∈ l, ∃ p, g a = .ok p) →
      ∃ res, collectPW g l = .ok res := by
  intro l
  induction l with
  | nil => exact fun _ => ⟨([], []), rfl⟩
  | cons a as ih =>
    intro h
    rcases h a (List.mem_cons_self a as) with ⟨p, hp⟩
    rcases ih (fun x hx => h x (List.mem_cons_of_mem a hx)) with ⟨q, hq⟩
    exact ⟨(p.1 ++ q.1, p.2 ++ q.2), by simp only [collectPW, hp, hq]⟩

theorem mem_fsCellFact {y m : Nat} {ft ic dt : String} {c : Cell} {f : PFact}
    (h : f ∈ fsCellFact y m ft ic dt c) : f.itemCode = ic := by
  unfold fsCellFact at h
  split at h
  · simp at h
  · split at h
    · rcases List.mem_singleton.mp h with rfl
      rfl
    · simp at h

theorem mem_otherCellFact {y m : Nat} {sn ic dt : String} {c : Cell} {f : PFact}
    (h : f ∈ otherCellFact y m sn ic dt c) : f.itemCode = ic := by
  unfold otherCellFact at h
  split at h
  · simp at h
  · split at h
    · rcases List.mem_singleton.mp h with rfl
      rfl
    · simp at h

theorem fsRow_itemCode {g : Grid} {fts : List (Nat × String)} {y m r : Nat} {l : List PFact}
    (h : fsRow g fts y m r = .ok l) : ∀ f ∈ l, f.itemCode ≠ "" := by
  unfold fsRow at h
  split at h
  · cases h
  next icCell _ =>
    split at h
    · cases h
    · dsimp only at h
      split at h
      · cases h
        intro f hf
        simp at hf
      next hskip =>
        cases h
        intro f hf
        rcases List.mem_flatten.mp hf with ⟨s, hs, hfs⟩
        rcases List.mem_map.mp hs with ⟨ft, _, rfl⟩
        have hic : f.itemCode = getMergedStr icCell := by
          split at hfs
          · exact mem_fsCellFact hfs
          · simp at hfs
        rw [hic]
        intro hemp
        exact hskip (Or.inl hemp)

theorem otherRow_itemCode {g : Grid} {tcs : List (Nat × Nat × Nat)} {sn : String} {r : Nat}
    {l : List PFact} (h : otherRow g tcs sn r = .ok l) : ∀ f ∈ l, f.itemCode ≠ "" := by
  unfold otherRow at h
  split at h
  · cases h
  next icCell _ =>
    split at h
    · cases h
    · dsimp only at h
      split at h
      · cases h
        intro f hf
        simp at hf
      next hskip =>
        cases h
        intro f hf
        rcases List.mem_flatten.mp hf with ⟨s, hs, hfs⟩
        rcases List.mem_map.mp hs with ⟨tc, _, rfl⟩
        have hic : f.itemCode = getMergedStr icCell := by
          split at hfs
          · exact mem_otherCellFact hfs
          · simp at hfs
        rw [hic]
        intro hemp
        exact hskip (Or.inl hemp)

theorem parseFS_itemCode {g : Grid} {res : List PFact × List String}
    (h : parseFinancialStatusSheet g = .ok res) : ∀ f ∈ res.1, f.itemCode ≠ "" := by
  unfold parseFinancialStatusSheet at h
  split at h
  · cases h
  · split at h
    · cases h
      intro f hf
      simp at hf
    · split at h
      · cases h
      next hrows =>
        cases h
        intro f hf
        rcases mem_collectM hrows f hf with ⟨r, _, bs, hbs, hfbs⟩
        exact fsRow_itemCode hbs f hfbs

theorem parseOther_itemCode {g : Grid} {nm : String} {byr : Option Nat}
    {res : List PFact × List String} (h : parseOtherSheet g nm byr = .ok res) :
    ∀ f ∈ res.1, f.itemCode ≠ "" := by
  unfold parseOtherSheet at h
  split at h
  · cases h
  · dsimp only at h
    split at h
    · cases h
      intro f hf
      simp at hf
    · split at h
      · cases h
      · split at h
        · cases h
        next hrows =>
          cases h
          intro f hf
          rcases mem_collectM hrows f hf with ⟨r, _, bs, hbs, hfbs⟩
          exact otherRow_itemCode hbs f hfbs

/-- Claim C1: every Fact produced by `parse_workbook` has a non-empty
Item_Code — both sheet strategies skip a data row before emitting anything
when its Item_Code cell is blank (or a sentinel), so no Fact with an empty
Item_Code can appear in the output table. -/
theorem claim1_item_codes_nonempty {wb : List (String × Grid)}
    {res : List PFact × List String} (h : parseWorkbook wb = .ok res) :
    ∀ f ∈ res.1, f.itemCode ≠ "" := by
  unfold parseWorkbook at h
  split at h
  · cases h
  · split at h
    · cases h
    next fsRows fsWarns hfs =>
      dsimp only at h
      split at h
      · cases h
      next others oWarns hoth =>
        cases h
        intro f hf
        rcases List.mem_append.mp hf with hf1 | hf2
        · exact parseFS_itemCode hfs f hf1
        · rcases mem_collectPW hoth f hf2 with ⟨p, _, q, hq, hfq⟩
          by_cases hnm : p.1 = "Financial Status"
          · rw [if_pos hnm] at hq
            cases hq
            simp at hfq
          · rw [if_neg hnm] at hq
            exact parseOther_itemCode hq f hfq

/-- Witness for C1: the sample workbook parses and its (only) Fact indeed
carries the non-empty Item_Code "3". -/
theorem claim1_witness :
    (⟨2024, 6, "Financial Status", "Gross Profit", "3", "Gross Profit", 500⟩ : PFact).itemCode
      ≠ "" :=
  @claim1_item_codes_nonempty wbRich
    ([⟨2024, 6, "Financial Status", "Gross Profit", "3", "Gross Profit", 500⟩], [])
    (by rfl) _ (by decide)

/-- Claim C2: in both sheet layouts, once a data row is processed and a
mapped value column reached, a Fact is emitted for that cell exactly when
its numeric value is non-zero or the row's Item_Code contains no dot —
zero-valued dotted rows are dropped, dot-free structural rows are kept at
zero. -/
theorem claim2_emission_condition (y m : Nat) (ft sn ic dt : String) (c : Cell) (v : Int)
    (h : floatOfCell c = some v) :
    (fsCellFact y m ft ic dt c ≠ [] ↔ (v ≠ 0 ∨ ¬(charIn '.' ic))) ∧
    (otherCellFact y m sn ic dt c ≠ [] ↔ (v ≠ 0 ∨ ¬(charIn '.' ic))) := by
  constructor
  · unfold fsCellFact
    rw [h]
    dsimp only
    split
    next hc => exact iff_of_true (by simp) hc
    next hc => exact iff_of_false (by simp) hc
  · unfold otherCellFact
    rw [h]
    dsimp only
    split
    next hc => exact iff_of_true (by simp) hc
    next hc => exact iff_of_false (by simp) hc

/-- Witness for C2 at a concrete non-zero dotted cell: the Fact is
emitted. -/
theorem claim2_witness :
    floatOfCell (.num 5) = some 5 ∧
    (fsCellFact 2024 6 "Projection" "2.1" "d" (.num 5) ≠ [] ↔
      ((5 : Int) ≠ 0 ∨ ¬(charIn '.' "2.1"))) :=
  ⟨rfl, (claim2_emission_condition 2024 6 "Projection" "Projection" "2.1" "d" (.num 5) 5 rfl).1⟩

/-- Counterexample to C3 as stated: a text cell `float()` cannot parse is
not treated like a blank cell — the blank cell yields a zero-valued Fact
for this dot-free row, the unparseable text cell yields nothing. -/
theorem claim3_counterexample :
    fsCellFact 2024 6 "Projection" "1" "X" (.text "abc" none) = [] ∧
    fsCellFact 2024 6 "Projection" "1" "X" .blank
      = [⟨2024, 6, "Financial Status", "Projection", "1", "X", 0⟩] ∧
    fsCellFact 2024 6 "Projection" "1" "X" (.text "abc" none)
      ≠ fsCellFact 2024 6 "Projection" "1" "X" .blank := by
  refine ⟨rfl, rfl, ?_⟩
  decide

/-- Claim C3 amended: a value cell whose content `float()` cannot parse is
silently skipped — no Fact is emitted for that cell (the row itself is not
dropped; other columns are handled independently) — while a blank cell is
coerced to 0 and kept subject to the structural-row rule. -/
theorem claim3_nonnumeric_skipped (y m : Nat) (ft sn ic dt : String) (c : Cell)
    (h : floatOfCell c = none) :
    fsCellFact y m ft ic dt c = [] ∧ otherCellFact y m sn ic dt c = [] ∧
    fsCellFact y m ft ic dt .blank
      = (if (0 : Int) ≠ 0 ∨ ¬(charIn '.' ic)
         then [⟨y, m, "Financial Status", ft, ic, dt, 0⟩] else []) := by
  refine ⟨?_, ?_, ?_⟩
  · unfold fsCellFact
    rw [h]
  · unfold otherCellFact
    rw [h]
  · rfl

/-- Witness for C3 amended at the counterexample's cell. -/
theorem claim3_witness :
    floatOfCell (.text "abc" none) = none ∧
    fsCellFact 2024 6 "Projection" "1" "X" (.text "abc" none) = [] :=
  ⟨rfl, (claim3_nonnumeric_skipped 2024 6 "Projection" "Projection" "1" "X"
    (.text "abc" none) rfl).1⟩

/-- Counterexample to C5 as stated: for the expanded query
"what is the gross profit?" the Projection / Gross Profit candidate scores
10, not the claimed 60 — only the word "gross" matches (in Data_Type);
"profit?" keeps its question mark under whitespace tokenization, there is
no phrase bonus for "gross profit" in the code, and the full-coverage
bonus fails because "what", "is", "the" match neither field. -/
theorem claim5_counterexample :
    (comboScore [] (asciiLower (expandAcronyms "What is the GP?"))
        (splitWs (asciiLower (expandAcronyms "What is the GP?")))
        ⟨"Financial Status", "Projection", "Gross Profit", "1", 6, 42, 2⟩).1 = 10 ∧
    (comboScore [] (asciiLower (expandAcronyms "What is the GP?"))
        (splitWs (asciiLower (expandAcronyms "What is the GP?")))
        ⟨"Financial Status", "Projection", "Gross Profit", "1", 6, 42, 2⟩).1 ≠ 60 := by
  constructor
  · decide
  · decide

/-- Claim C5 amended: for "What is the GP?" (acronym-expanded to
"what is the gross profit?") the Projection / Gross Profit candidate
scores 10 (a single +10 word match, no phrase or coverage bonus), the
Net Profit candidate scores 0 and is excluded, and the returned list is
the single unambiguous candidate. -/
theorem claim5_gp_query_score :
    findBestMatches [fGP, fNP] "What is the GP?" "P" []
      = [⟨"Financial Status", "Projection", "Gross Profit", 42, 6, "1", 10, 1, 2⟩] ∧
    (comboScore [] (asciiLower (expandAcronyms "What is the GP?"))
        (splitWs (asciiLower (expandAcronyms "What is the GP?")))
        ⟨"Financial Status", "Committed Cost", "Net Profit", "7", 6, 7, 3⟩).1 = 0 := by
  constructor
  · decide
  · decide

/-- Claim C10: acronym expansion substitutes the table entries one at a
time over already-rewritten text ("cashflow" becomes "cash flow", then the
later "cash" entry rewrites the inserted word again, giving
"cash flow flow"), so the expansion is not idempotent. -/
theorem claim10_expansion_not_idempotent :
    expandAcronyms "cashflow" = "cash flow flow" ∧
    expandAcronyms (expandAcronyms "cashflow") ≠ expandAcronyms "cashflow" := by
  constructor
  · decide
  · decide

/-- A Gross-Profit row belonging to a different project `A` with the same
field text as project `P`'s row. -/
def fOtherProj : CFact :=
  ⟨2024, 6, "Financial Status", "Projection", "1", "Gross Profit", 99, 2, "A"⟩

/-- Claim C8: the candidate list `find_best_matches` returns for project
`B` is computed only from rows whose `_project` equals `B` — prepending
arbitrarily many rows of other projects (even with identical
Financial_Type/Data_Type text) leaves the ranked list unchanged. -/
theorem claim8_project_isolation (dfA dfB : List CFact) (q proj : String)
    (kb : List (String × Saved)) (h : ∀ f ∈ dfA, f.project ≠ proj) :
    findBestMatches (dfA ++ dfB) q proj kb = findBestMatches dfB q proj kb := by
  have hnil : dfA.filter (fun f => decide (f.project = proj)) = [] := by
    rw [List.filter_eq_nil_iff]
    intro a ha
    simpa using h a ha
  unfold findBestMatches
  rw [List.filter_append, hnil, List.nil_append]

/-- Witness for C8: a concrete project-`A` row does not disturb project
`P`'s list. -/
theorem claim8_witness :
    findBestMatches ([fOtherProj] ++ [fGP]) "What is the GP?" "P" []
      = findBestMatches [fGP] "What is the GP?" "P" [] :=
  claim8_project_isolation [fOtherProj] [fGP] "What is the GP?" "P" [] (by decide)

theorem matchGe_total {a b : Match} (h : ¬MatchGe a b) : MatchGe b a := by
  unfold MatchGe at *
  omega

theorem matchGe_trans {a b c : Match} (h1 : MatchGe a b) (h2 : MatchGe b c) : MatchGe a c := by
  unfold MatchGe at *
  omega

theorem mem_insertMatch {a x : Match} : ∀ {l : List Match},
    x ∈ insertMatch a l → x = a ∨ x ∈ l := by
  intro l
  induction l with
  | nil =>
    intro hx
    unfold insertMatch at hx
    simpa using hx
  | cons b bs ih =>
    intro hx
    unfold insertMatch at hx
    split at hx
    · rcases List.mem_cons.mp hx with rfl | hx'
      · exact Or.inl rfl
      · exact Or.inr hx'
    · rcases List.mem_cons.mp hx with rfl | hx'
      · exact Or.inr (List.mem_cons_self _ _)
      · rcases ih hx' with h' | h'
        · exact Or.inl h'
        · exact Or.inr (List.mem_cons_of_mem b h')

theorem pairwise_insertMatch {a : Match} : ∀ {l : List Match},
    l.Pairwise MatchGe → (insertMatch a l).Pairwise MatchGe := by
  intro l
  induction l with
  | nil =>
    intro _
    simp [insertMatch]
  | cons b bs ih =>
    intro hp
    rcases List.pairwise_cons.mp hp with ⟨hb, hbs⟩
    unfold insertMatch
    split
    next hab =>
      refine List.pairwise_cons.mpr ⟨?_, hp⟩
      intro x hx
      rcases List.mem_cons.mp hx with rfl | hx'
      · exact hab
      · exact matchGe_trans hab (hb x hx')
    next hab =>
      refine List.pairwise_cons.mpr ⟨?_, ih hbs⟩
      intro x hx
      rcases mem_insertMatch hx with rfl | hx'
      · exact matchGe_total hab
      · exact hb x hx'

theorem pairwise_sortMatches : ∀ l : List Match, (sortMatches l).Pairwise MatchGe := by
  intro l
  induction l with
  | nil => simp [sortMatches]
  | cons a as ih => exact pairwise_insertMatch ih

/-- Claim C6: when two candidates receive equal heuristic scores (scores
with an empty preference store), a stored preference whose fields match
exactly the first candidate adds 200 to its score only, and in the ranked
list — sorted by score then matched-word count, descending — every
occurrence of the boosted match comes strictly before every occurrence of
the other. -/
theorem claim6_preference_dominates (kb : List (String × Saved)) (sl : String)
    (sw : List String) (c1 c2 : Combo)
    (hkb : kb ≠ [])
    (hbase : (comboScore [] sl sw c1).1 = (comboScore [] sl sw c2).1)
    (h1 : kbMatch kb sl c1 = true)
    (h2 : kbMatch kb sl c2 = false) :
    (comboScore kb sl sw c1).1 = (comboScore [] sl sw c1).1 + 200 ∧
    (comboScore kb sl sw c2).1 < (comboScore kb sl sw c1).1 ∧
    ∀ (ms : List Match) (i j : Fin (sortMatches ms).length),
      (sortMatches ms).get i = mkMatch c1 (comboScore kb sl sw c1).1 (comboScore kb sl sw c1).2 →
      (sortMatches ms).get j = mkMatch c2 (comboScore kb sl sw c2).1 (comboScore kb sl sw c2).2 →
      (i : Nat) < (j : Nat) := by
  have hb200 : ∀ c : Combo, (comboScore kb sl sw c).1
      = (comboScore [] sl sw c).1 + (if kb ≠ [] ∧ kbMatch kb sl c then 200 else 0) := by
    intro c
    simp only [comboScore]
    have : ¬(([] : List (String × Saved)) ≠ [] ∧ kbMatch [] sl c) := by simp
    rw [if_neg this]
    omega
  have hs1 : (comboScore kb sl sw c1).1 = (comboScore [] sl sw c1).1 + 200 := by
    rw [hb200 c1, if_pos ⟨hkb, h1⟩]
  have hs2 : (comboScore kb sl sw c2).1 = (comboScore [] sl sw c2).1 := by
    rw [hb200 c2, if_neg (by simp [h2])]
    omega
  have hlt : (comboScore kb sl sw c2).1 < (comboScore kb sl sw c1).1 := by
    rw [hs1, hs2, ← hbase]
    omega
  refine ⟨hs1, hlt, ?_⟩
  intro ms i j hi hj
  have hscore1 : ((sortMatches ms).get i).score = (comboScore kb sl sw c1).1 := by
    rw [hi]; rfl
  have hscore2 : ((sortMatches ms).get j).score = (comboScore kb sl sw c2).1 := by
    rw [hj]; rfl
  have hpw := List.pairwise_iff_get.mp (pairwise_sortMatches ms)
  rcases Nat.lt_trichotomy (i : Nat) (j : Nat) with hlt' | heq' | hgt'
  · exact hlt'
  · exfalso
    have : i = j := Fin.ext heq'
    rw [this, hscore2] at hscore1
    omega
  · exfalso
    have hge := hpw j i (by exact hgt')
    unfold MatchGe at hge
    rw [hscore1, hscore2] at hge
    omega

/-- A combo carrying the fields of the stored preference entry. -/
def cPref : Combo := ⟨"Financial Status", "Projection", "Gross Profit", "3", 6, 42, 2⟩

/-- A same-heuristic-score combo not matching the stored preference. -/
def cNoPref : Combo := ⟨"Financial Status", "Projection", "Gross Profit", "5", 6, 7, 3⟩

/-- The concrete one-entry preference store of the C6 witness. -/
def kbW : List (String × Saved) := [("q", ⟨"Projection", "Gross Profit", "3"⟩)]

/-- The unsorted concrete match list of the C6 witness (boosted match
deliberately placed last). -/
def msW : List Match :=
  [mkMatch cNoPref (comboScore kbW "q" [] cNoPref).1 (comboScore kbW "q" [] cNoPref).2,
   mkMatch cPref (comboScore kbW "q" [] cPref).1 (comboScore kbW "q" [] cPref).2]

/-- Witness for C6 at a concrete store, query and candidate pair: the
boosted candidate lands at index 0, the other at index 1. -/
theorem claim6_witness :
    (comboScore kbW "q" [] cPref).1 = (comboScore [] "q" [] cPref).1 + 200 ∧ (0 : Nat) < 1 := by
  have h := claim6_preference_dominates kbW "q" [] cPref cNoPref (by decide) (by decide)
    (by decide) (by decide)
  exact ⟨h.1, h.2.2 msW ⟨0, by decide⟩ ⟨1, by decide⟩ (by decide) (by decide)⟩

/-! ### Claim C4: header tracing -/

/-- One header cell of the trace, as the source keeps it: raw
`str(val).strip()` text (no `=` stripping), kept when non-blank and not a
formula indicator, and only inside the frame. -/
def headerCellOpt (g : Grid) (col r : Nat) : Option String :=
  if r < g.nrows ∧ col < g.ncols then
    let c := g.cell r col
    if !c.isna ∧ pyStrip (cellStr c) ≠ "" then
      if !isFormulaIndicator (pyStrip (cellStr c)) then some (pyStrip (cellStr c))
      else none
    else none
  else none

/-- The surviving header cells of one column, in row order (rows 11–14). -/
def headerCellsRaw (g : Grid) (col : Nat) : List String :=
  (List.range' 11 4).filterMap (headerCellOpt g col)

/-- The claim's version of one traced header cell, following the spec's
words: read the cell, and if non-blank first strip a leading `=` and then
drop it when the stripped text matches a formula-indicator pattern. -/
def specHeaderCellOpt (g : Grid) (col r : Nat) : Option String :=
  if r < g.nrows ∧ col < g.ncols then
    let s := getMergedStr (g.cell r col)
    if s ≠ "" then
      let s2 := if strStartsWith "=" s then (⟨s.data.drop 1⟩ : String) else s
      if !isFormulaIndicator s2 then some s2 else none
    else none
  else none

/-- The claim's traced financial-type label (spec's words, with the `=`
stripping). -/
def specTracedLabel (g : Grid) (col : Nat) : String :=
  joinSpace ((List.range' 11 4).filterMap (specHeaderCellOpt g col))

/-- The per-column entry of the header map, as an optional value. -/
def colLabelOpt (g : Grid) (col : Nat) : Option (Nat × String) :=
  if headerCellsRaw g col ≠ [] then
    if joinSpace (headerCellsRaw g col) ≠ "" then some (col, joinSpace (headerCellsRaw g col))
    else none
  else none

theorem foldl_opt_append {α β : Type} (s : α → Option β) :
    ∀ (l : List α) (acc : List β),
      l.foldl (fun a x => (s x).elim a (fun b => a ++ [b])) acc
        = acc ++ l.filterMap s := by
  intro l
  induction l with
  | nil => intro acc; simp
  | cons a as ih =>
    intro acc
    simp only [List.foldl_cons, List.filterMap_cons]
    cases hsa : s a with
    | none =>
      have h0 : (Option.elim (none : Option β) acc fun b => acc ++ [b]) = acc := rfl
      rw [h0, ih]
    | some b =>
      have h0 : (Option.elim (some b) acc fun x => acc ++ [x]) = acc ++ [b] := rfl
      rw [h0, ih]
      simp

theorem headerParts_eq (g : Grid) (col : Nat) :
    ((List.range' 11 4).foldl
      (fun ps r =>
        if r < g.nrows ∧ col < g.ncols then
          let c := g.cell r col
          if !c.isna ∧ pyStrip (cellStr c) ≠ "" then
            if !isFormulaIndicator (pyStrip (cellStr c)) then ps ++ [pyStrip (cellStr c)]
            else ps
          else ps
        else ps) [])
      = headerCellsRaw g col := by
  have hpt : ∀ (ps : List String) (r : Nat),
      (if r < g.nrows ∧ col < g.ncols then
        let c := g.cell r col
        if !c.isna ∧ pyStrip (cellStr c) ≠ "" then
          if !isFormulaIndicator (pyStrip (cellStr c)) then ps ++ [pyStrip (cellStr c)]
          else ps
        else ps
      else ps)
      = (headerCellOpt g col r).elim ps (fun b => ps ++ [b]) := by
    intro ps r
    unfold headerCellOpt
    dsimp only
    split_ifs <;> rfl
  rw [funext fun ps => funext fun r => hpt ps r,
    foldl_opt_append (headerCellOpt g col) (List.range' 11 4) [], List.nil_append]
  rfl

theorem buildFT_eq (g : Grid) :
    buildFinancialTypes g = (List.range' 2 (g.ncols - 2)).filterMap (colLabelOpt g) := by
  unfold buildFinancialTypes
  have hpt : ∀ (acc : List (Nat × String)) (col : Nat),
      (let parts := (List.range' 11 4).foldl
        (fun ps r =>
          if r < g.nrows ∧ col < g.ncols then
            let c := g.cell r col
            if !c.isna ∧ pyStrip (cellStr c) ≠ "" then
              if !isFormulaIndicator (pyStrip (cellStr c)) then ps ++ [pyStrip (cellStr c)]
              else ps
            else ps
          else ps) []
      if parts ≠ [] then
        let combined := joinSpace parts
        if combined ≠ "" then acc ++ [(col, combined)] else acc
      else acc)
      = (colLabelOpt g col).elim acc (fun b => acc ++ [b]) := by
    intro acc col
    dsimp only
    rw [headerParts_eq g col]
    unfold colLabelOpt
    split_ifs <;> rfl
  rw [funext fun acc => funext fun col => hpt acc col,
    foldl_opt_append (colLabelOpt g) (List.range' 2 (g.ncols - 2)) [], List.nil_append]

/-- Counterexample to C4 as stated: the header loop appends
`str(val).strip()` raw — it never applies the `=`-stripping of
`clean_text_value` — so a header cell holding `=Gross Profit` is traced
verbatim, while the claim's strip-then-filter recipe yields
`Gross Profit`. -/
theorem claim4_counterexample :
    buildFinancialTypes gEq = [(2, "=Gross Profit")] ∧
    specTracedLabel gEq 2 = "Gross Profit" ∧
    ("=Gross Profit" : String) ≠ "Gross Profit" := by
  refine ⟨by decide, by decide, by decide⟩

/-- Claim C4 amended: the traced label is the single-space join, in row
order, of the non-blank header cells kept raw (no `=` stripping) after
dropping formula-indicator matches; it is never empty, a column with no
surviving cells contributes no entry (hence no Facts), and the claim's
concrete example `["", "D=B+C", "Gross Profit"]` traces to
`"Gross Profit"`. -/
theorem claim4_header_trace :
    (∀ (g : Grid) (col : Nat) (label : String),
        (col, label) ∈ buildFinancialTypes g →
          label = joinSpace (headerCellsRaw g col) ∧ label ≠ "") ∧
    (∀ (g : Grid) (col : Nat), headerCellsRaw g col = [] →
        ∀ label, (col, label) ∉ buildFinancialTypes g) ∧
    buildFinancialTypes gHdr = [(2, "Gross Profit")] := by
  refine ⟨?_, ?_, by decide⟩
  · intro g col label hmem
    rw [buildFT_eq] at hmem
    rcases List.mem_filterMap.mp hmem with ⟨c, _, hc⟩
    unfold colLabelOpt at hc
    split_ifs at hc with h1 h2
    rcases Option.some.inj hc with hpair
    have hcol : c = col := congrArg Prod.fst hpair
    have hlab : joinSpace (headerCellsRaw g c) = label := congrArg Prod.snd hpair
    subst hcol
    exact ⟨hlab.symm, hlab ▸ h2⟩
  · intro g col hraw label hmem
    rw [buildFT_eq] at hmem
    rcases List.mem_filterMap.mp hmem with ⟨c, _, hc⟩
    unfold colLabelOpt at hc
    split_ifs at hc with h1 h2
    rcases Option.some.inj hc with hpair
    have hcol : c = col := congrArg Prod.fst hpair
    subst hcol
    exact h1 hraw

/-- Witness for C4 amended at the claim's example grid. -/
theorem claim4_witness :
    "Gross Profit" = joinSpace (headerCellsRaw gHdr 2) ∧ ("Gross Profit" : String) ≠ "" :=
  claim4_header_trace.1 gHdr 2 "Gross Profit" (by decide)

/-! ### Claim C7: monthly category decomposition -/

/-- The per-classification subtotal written as an explicit filtered sum:
take the classification's rows for the target month (with the
Financial Status fallback), keep exactly the rows whose Item_Code starts
with `pfx + "."` or equals `pfx`, and sum their values. -/
def specCategoryTotal (pdf : List CFact) (ft pfx : String) (targetMonth : TargetMonth) : Int :=
  (((if (pdf.filter (fun f => f.sheetName = ft ∧ monthEq f.month targetMonth)).length = 0 then
      pdf.filter (fun f => f.sheetName = "Financial Status" ∧ f.financialType = ft
        ∧ monthEq f.month targetMonth)
    else pdf.filter (fun f => f.sheetName = ft ∧ monthEq f.month targetMonth)).filter
      (fun f => strStartsWith (pfx ++ ".") f.itemCode ∨ f.itemCode = pfx)).map (·.value)).sum

theorem foldl_cond_sum {α : Type} (P : α → Prop) [DecidablePred P] (v : α → Int) :
    ∀ (l : List α) (init : Int),
      l.foldl (fun t f => if P f then t + v f else t) init
        = init + ((l.filter (fun f => decide (P f))).map v).sum := by
  intro l
  induction l with
  | nil => intro init; simp
  | cons a as ih =>
    intro init
    simp only [List.foldl_cons, List.filter_cons]
    by_cases hpa : P a
    · rw [if_pos hpa, ih]
      simp [hpa, add_assoc]
    · rw [if_neg hpa, ih]
      simp [hpa]

theorem categoryTotal_eq (pdf : List CFact) (ft pfx : String) (tm : TargetMonth) :
    categoryTotal pdf ft pfx tm = specCategoryTotal pdf ft pfx tm := by
  unfold categoryTotal specCategoryTotal
  dsimp only
  refine (foldl_cond_sum
    (fun (f : CFact) => strStartsWith (pfx ++ ".") f.itemCode = true ∨ f.itemCode = pfx)
    (fun (f : CFact) => f.value) _ 0).trans ?_
  simp

/-- Claim C7 (code bug): the per-classification prefix summation is as the
claim describes when the month is written in the query — "monthly
preliminaries in june" over the claim's Facts yields a Projection
subtotal of 500, not 800, and no cross-classification aggregate — but the
claim's own example, "monthly preliminaries" defaulting to the currently
selected reporting month, reports a Projection subtotal of 0 instead of
500: `st.session_state.current_month` is a Drive folder name, a string,
and the pandas comparison of the integer `Month` column with a string is
`False` on every row, so both the per-sheet filter and the Financial
Status fallback come up empty. -/
theorem claim7_default_month_mismatch :
    handleMonthlyCategory [fPre1, fPre2] "P" "monthly preliminaries" "6"
      = some [("Projection", 0), ("Committed Cost", 0), ("Accrual", 0), ("Cash Flow", 0)] ∧
    handleMonthlyCategory [fPre1, fPre2] "P" "monthly preliminaries in june" "6"
      = some [("Projection", 500), ("Committed Cost", 0), ("Accrual", 0), ("Cash Flow", 0)] := by
  constructor
  · decide
  · decide

/-! ### Claim C9: error recovery in `parse_workbook` -/

/-- Counterexample to C9 as stated: a workbook without a sheet named
`Financial Status` makes `parse_workbook` abort with the `pd.read_excel`
exception instead of returning an empty table. -/
theorem claim9_counterexample :
    parseWorkbook [] = .error "Worksheet named Financial Status not found" := rfl

theorem fsRow_ok (g : Grid) (fts : List (Nat × String)) (y m r : Nat)
    (hr : r < g.nrows) (hc : 2 ≤ g.ncols) : ∃ l, fsRow g fts y m r = .ok l := by
  unfold fsRow
  have h0 : getCellE g r 0 = .ok (g.cell r 0) := by
    unfold getCellE
    rw [if_pos ⟨hr, by omega⟩]
  have h1 : getCellE g r 1 = .ok (g.cell r 1) := by
    unfold getCellE
    rw [if_pos ⟨hr, by omega⟩]
  rw [h0, h1]
  dsimp only
  split
  · exact ⟨_, rfl⟩
  · exact ⟨_, rfl⟩

theorem otherRow_ok (g : Grid) (tcs : List (Nat × Nat × Nat)) (sn : String) (r : Nat)
    (hr : r < g.nrows) (hc : 2 ≤ g.ncols) : ∃ l, otherRow g tcs sn r = .ok l := by
  unfold otherRow
  have h0 : getCellE g r 0 = .ok (g.cell r 0) := by
    unfold getCellE
    rw [if_pos ⟨hr, by omega⟩]
  have h1 : getCellE g r 1 = .ok (g.cell r 1) := by
    unfold getCellE
    rw [if_pos ⟨hr, by omega⟩]
  rw [h0, h1]
  dsimp only
  split
  · exact ⟨_, rfl⟩
  · exact ⟨_, rfl⟩

theorem parseFS_ok (g : Grid) (h5 : 5 ≤ g.nrows) (hc : 2 ≤ g.ncols) :
    ∃ res, parseFinancialStatusSheet g = .ok res := by
  unfold parseFinancialStatusSheet
  have hb5 : getCellE g 4 1 = .ok (g.cell 4 1) := by
    unfold getCellE
    rw [if_pos ⟨by omega, by omega⟩]
  rw [hb5]
  dsimp only
  cases hd : pyParseDate? (getMergedStr (g.cell 4 1)) with
  | none => exact ⟨_, rfl⟩
  | some ym =>
    have hrows : ∃ rows, collectM (fsRow g (buildFinancialTypes g) ym.1 ym.2)
        (List.range' 15 (g.nrows - 15)) = .ok rows := by
      refine collectM_ok ?_
      intro r hrm
      have hb := List.mem_range'_1.mp hrm
      exact fsRow_ok g _ ym.1 ym.2 r (by omega) hc
    rcases hrows with ⟨rows, hrows⟩
    dsimp only
    rw [hrows]
    exact ⟨_, rfl⟩

theorem parseOther_ok (g : Grid) (nm : String) (byr : Option Nat)
    (h12 : 12 ≤ g.nrows) (hc : 2 ≤ g.ncols) : ∃ res, parseOtherSheet g nm byr = .ok res := by
  unfold parseOtherSheet
  have hb5 : getCellE g 4 1 = .ok (g.cell 4 1) := by
    unfold getCellE
    rw [if_pos ⟨by omega, by omega⟩]
  rw [hb5]
  dsimp only
  split
  · exact ⟨_, rfl⟩
  next year hyear =>
    have hth : ∃ ths, collectM (fun c =>
        match getCellE g 11 c with
        | .error e => .error e
        | .ok cl => .ok [getMergedStr cl]) (List.range g.ncols) = .ok ths := by
      refine collectM_ok ?_
      intro c hcm
      have hcc : c < g.ncols := List.mem_range.mp hcm
      have h11 : getCellE g 11 c = .ok (g.cell 11 c) := by
        unfold getCellE
        rw [if_pos ⟨by omega, hcc⟩]
      rw [h11]
      exact ⟨_, rfl⟩
    rcases hth with ⟨ths, hth⟩
    rw [hth]
    dsimp only
    have hrows : ∃ rows, collectM (otherRow g ((List.range' 2 (g.ncols - 2)).foldl
        (fun acc col =>
          let header := ths.getD col ""
          if header ≠ "" then
            match parseTimeColumnHeader header with
            | some m => acc ++ [(col, m, year)]
            | none => acc
          else acc) []) nm) (List.range' 12 (g.nrows - 12)) = .ok rows := by
      refine collectM_ok ?_
      intro r hrm
      have hb := List.mem_range'_1.mp hrm
      exact otherRow_ok g _ nm r (by omega) hc
    rcases hrows with ⟨rows, hrows⟩
    rw [hrows]
    exact ⟨_, rfl⟩

/-- Claim C9 amended: an unreadable metadata cell is recovered locally
(warning plus empty row list) and unmatched columns are skipped, so
`parse_workbook` returns a table without raising provided the workbook has
a `Financial Status` sheet and every sheet frame is large enough for the
unguarded `iloc` reads (at least 12 rows and 2 columns); a workbook
missing the Financial Status sheet aborts with an exception (see the
counterexample). -/
theorem claim9_recovery (wb : List (String × Grid)) (p0 : String × Grid)
    (hfind : wb.find? (fun p => p.1 = "Financial Status") = some p0)
    (hsize : ∀ p ∈ wb, 12 ≤ p.2.nrows ∧ 2 ≤ p.2.ncols) :
    ∃ res, parseWorkbook wb = .ok res := by
  have hp0 : p0 ∈ wb := List.mem_of_find?_eq_some hfind
  have hrs : readSheet wb "Financial Status" = .ok p0.2 := by
    unfold readSheet
    rw [hfind]
  rcases parseFS_ok p0.2 (by have := hsize p0 hp0; omega) (hsize p0 hp0).2 with ⟨fsRes, hfs⟩
  obtain ⟨fsRows, fsWarns⟩ := fsRes
  unfold parseWorkbook
  rw [hrs]
  dsimp only
  rw [hfs]
  dsimp only
  have hoth : ∃ others, collectPW (fun p =>
      if p.1 = "Financial Status" then .ok ([], [])
      else parseOtherSheet p.2 p.1 (fsRows.head?.map (·.year))) wb = .ok others := by
    refine collectPW_ok ?_
    intro p hp
    by_cases hnm : p.1 = "Financial Status"
    · rw [if_pos hnm]
      exact ⟨_, rfl⟩
    · rw [if_neg hnm]
      exact parseOther_ok p.2 p.1 _ (hsize p hp).1 (hsize p hp).2
  rcases hoth with ⟨⟨others, oWarns⟩, hoth⟩
  rw [hoth]
  exact ⟨_, rfl⟩

/-- Witness for C9 amended: a workbook whose report-date cells are all
unreadable still parses (to warnings and no rows) rather than raising. -/
theorem claim9_witness : ∃ res, parseWorkbook wbBadDates = .ok res :=
  claim9_recovery wbBadDates ("Financial Status", gBadDate) (by rfl) (by decide)

end FinBot
